import Mathlib

/-!
# Verification of the scavenger-hunt secret-gating core

Shallow embedding of the cryptographic contract shared by `build.js`
(the build-time preparation step) and the runtime verification script.

Platform cryptographic primitives (Web Crypto / Node `crypto`: SHA-256,
PBKDF2, AES-256-GCM, Base64, UTF-8 codecs) are not code of this
repository; they are modelled abstractly by a `Crypto` structure whose
fields carry the algebraic laws the real platform primitives satisfy
(GCM decryption inverts encryption, the tag is 16 bytes, Base64 decoding
inverts encoding, UTF-8 decoding inverts encoding).  All code of the
repository itself — the build script's derivation pipeline and the
runtime `verify` / `decryptMessage` / `base64ToBytes` / `sha256`-hex
functions — is transcribed directly from the source.

Bytes are modelled as `Nat` values `< 256`.
-/

namespace ScavengerHunt

/-- The hash algorithm designator passed to PBKDF2.  Node's `'sha256'`
string (build side) and Web Crypto's `'SHA-256'` string (runtime side)
both designate this single algorithm. -/
inductive HashAlg where
  | sha256
deriving DecidableEq, Repr

/-- The events observable during one verification attempt, used to state
the ordering guarantee (hash check strictly before key derivation). -/
inductive CryptoOp where
  | hashOp
  | deriveOp
  | decryptOp
deriving DecidableEq, Repr

/-- Abstract model of the platform cryptographic primitives used by both
sides of the contract, together with the laws the real primitives
satisfy.  `gcmEnc`/`gcmDec` are the length-preserving (CTR-mode) body
transforms of AES-256-GCM and `gcmTag` is the 16-byte authentication tag
as a function of key, IV and ciphertext (AAD is empty throughout the
repository). -/
structure Crypto where
  utf8 : String → List Nat
  utf8Decode : List Nat → String
  sha256 : List Nat → List Nat
  pbkdf2 : List Nat → List Nat → Nat → HashAlg → Nat → List Nat
  gcmEnc : List Nat → List Nat → List Nat → List Nat
  gcmDec : List Nat → List Nat → List Nat → List Nat
  gcmTag : List Nat → List Nat → List Nat → List Nat
  toBase64 : List Nat → String
  atob : String → Option String
  utf8_lt : ∀ s, (utf8 s).all (fun b => b < 256) = true
  utf8Decode_utf8 : ∀ s, utf8Decode (utf8 s) = s
  sha256_lt : ∀ l, (sha256 l).all (fun b => b < 256) = true
  gcmEnc_lt : ∀ k iv m, (gcmEnc k iv m).all (fun b => b < 256) = true
  gcmDec_gcmEnc : ∀ k iv m, m.all (fun b => b < 256) = true →
    gcmDec k iv (gcmEnc k iv m) = m
  gcmTag_len : ∀ k iv c, (gcmTag k iv c).length = 16
  gcmTag_lt : ∀ k iv c, (gcmTag k iv c).all (fun b => b < 256) = true
  atob_toBase64 : ∀ bs, bs.all (fun b => b < 256) = true →
    (atob (toBase64 bs)).map (fun s => s.data.map Char.toNat) = some bs

/-- One lowercase hexadecimal digit, as produced by JavaScript's
`Number.prototype.toString(16)` for values below 16: digits `0`–`9`
(code points from 48) then letters `a`–`f` (code points from 97). -/
def hexChar (n : Nat) : Char :=
  if n < 10 then Char.ofNat (48 + n) else Char.ofNat (87 + n)

/-- Two-hex-digit rendering of one byte: for `b < 256` this is exactly
`b.toString(16).padStart(2, '0')` from the runtime's `sha256` helper
(and the byte layout of Node's `digest('hex')`). -/
def byteHex (b : Nat) : List Char :=
  [hexChar (b / 16), hexChar (b % 16)]

/-- Canonical lowercase hex encoding of a byte list: the runtime's
`hashArray.map((b) => b.toString(16).padStart(2, '0')).join('')` and the
build script's `digest('hex')`. -/
def bytesToHex (l : List Nat) : String :=
  String.mk (l.map byteHex).flatten

/-- `hex(SHA256(s))`, the hash computation both sides perform: the build
script's `crypto.createHash('sha256').update(SECRET_CODE).digest('hex')`
and the runtime's `sha256` helper (UTF-8 encode, digest, hex). -/
def sha256Hex (C : Crypto) (s : String) : String :=
  bytesToHex (C.sha256 (C.utf8 s))

/-- The five constants the build script injects into `index.html` and
the runtime reads back (`__CODE_HASH__`, `__CODE_LENGTH__`, `__SALT__`,
`__IV__`, `__ENCRYPTED_MESSAGE__`). -/
structure Constants where
  CODE_HASH : String
  CODE_LENGTH : Nat
  SALT : String
  IV : String
  ENCRYPTED_MESSAGE : String
deriving DecidableEq, Repr

/-- Everything the build script computes from the secrets plus the random
salt and IV (lines 41–61 of `build.js`): the hex hash, the PBKDF2 key,
the GCM ciphertext with the auth tag appended, and the Base64 encodings
that become the embedded constants. -/
structure BuildOutput where
  codeHash : String
  codeLength : Nat
  salt : List Nat
  iv : List Nat
  encrypted : List Nat
  authTag : List Nat
  encryptedWithTag : List Nat
  saltB64 : String
  ivB64 : String
  encryptedB64 : String
deriving Repr

/-- The build script's key derivation (line 49):
`crypto.pbkdf2Sync(SECRET_CODE, salt, 100000, 32, 'sha256')` — the
password UTF-8-encoded, 100000 iterations, 32-byte output, SHA-256. -/
def buildKey (C : Crypto) (code : String) (salt : List Nat) : List Nat :=
  C.pbkdf2 (C.utf8 code) salt 100000 HashAlg.sha256 32

/-- The derivation pipeline of `build.js` (lines 41–61), for given secret
code, secret message and the 16/12 random bytes drawn for salt and IV:
SHA-256 hash of the code (hex), PBKDF2 key
(`pbkdf2Sync(SECRET_CODE, salt, 100000, 32, 'sha256')`), AES-256-GCM
encryption of the message, tag appended
(`Buffer.concat([encrypted, authTag])`), then Base64. -/
def buildArtifacts (C : Crypto) (code msg : String) (salt iv : List Nat) :
    BuildOutput :=
  let codeHash := sha256Hex C code
  let key := buildKey C code salt
  let encrypted := C.gcmEnc key iv (C.utf8 msg)
  let authTag := C.gcmTag key iv encrypted
  let encryptedWithTag := encrypted ++ authTag
  { codeHash := codeHash
    codeLength := code.length
    salt := salt
    iv := iv
    encrypted := encrypted
    authTag := authTag
    encryptedWithTag := encryptedWithTag
    saltB64 := C.toBase64 salt
    ivB64 := C.toBase64 iv
    encryptedB64 := C.toBase64 encryptedWithTag }

/-- JavaScript truthiness of an optional environment-variable string:
`undefined` and the empty string are falsy. -/
def truthy : Option String → Bool
  | none => false
  | some s => !(s == "")

/-- The build script's entry: it aborts with exit code 1 before any
derivation when `!SECRET_CODE || !SECRET_MESSAGE` (missing or empty),
otherwise it runs the derivation pipeline.  `none` models the fatal
abort: no artifact is produced. -/
def build (C : Crypto) (code? msg? : Option String) (salt iv : List Nat) :
    Option BuildOutput :=
  if truthy code? && truthy msg? then
    match code?, msg? with
    | some code, some msg => some (buildArtifacts C code msg salt iv)
    | _, _ => none
  else none

/-- The constant injection of `build.js` lines 72–76: the build output's
hash, length and Base64 strings become the runtime's embedded constants. -/
def toConstants (b : BuildOutput) : Constants :=
  { CODE_HASH := b.codeHash
    CODE_LENGTH := b.codeLength
    SALT := b.saltB64
    IV := b.ivB64
    ENCRYPTED_MESSAGE := b.encryptedB64 }

/-! ## Runtime verification component -/

/-- The runtime's `base64ToBytes`: `atob` (which throws on malformed
Base64, modelled by `none`) followed by the `charCodeAt` loop turning
the binary string into a byte array. -/
def base64ToBytes (C : Crypto) (b64 : String) : Option (List Nat) :=
  (C.atob b64).map (fun bin => bin.data.map Char.toNat)

/-- The runtime's `deriveKey`: PBKDF2 over the UTF-8-encoded password
with the given salt, 100000 iterations, SHA-256, producing an AES-GCM
key of 256 bits (256 / 8 bytes). -/
def deriveKey (C : Crypto) (password : String) (salt : List Nat) : List Nat :=
  C.pbkdf2 (C.utf8 password) salt 100000 HashAlg.sha256 (256 / 8)

/-- Web Crypto `crypto.subtle.decrypt({name: 'AES-GCM', iv}, key, data)`
with the default 128-bit tag length: the final 128 / 8 bytes of `data`
are the tag; the operation fails (throws, modelled by `none`) when the
data is shorter than the tag or the recomputed tag disagrees. -/
def subtleDecrypt (C : Crypto) (key iv data : List Nat) : Option (List Nat) :=
  if data.length < 128 / 8 then none
  else
    let body := data.take (data.length - 128 / 8)
    let tag := data.drop (data.length - 128 / 8)
    if C.gcmTag key iv body = tag then some (C.gcmDec key iv body) else none

/-- The distinct failure points inside the body of the runtime's
`decryptMessage`: the three `base64ToBytes` calls (whose `atob` can
throw) and the `crypto.subtle.decrypt` call (which throws on
authentication failure).  `TextDecoder().decode` never throws in its
default non-fatal mode. -/
inductive DecErr where
  | badSalt
  | badIV
  | badCiphertext
  | authFailure
deriving DecidableEq, Repr

/-- The body of the runtime's `decryptMessage` (the code inside its
`try` block), with exceptions modelled as `Except.error` and the
crypto-operation trace recorded: decode SALT, IV and ENCRYPTED_MESSAGE
from Base64, derive the key from the candidate code, attempt
authenticated decryption, UTF-8-decode the plaintext. -/
def decryptMessageE (C : Crypto) (consts : Constants) (code : String) :
    Except DecErr String × List CryptoOp :=
  match base64ToBytes C consts.SALT with
  | none => (Except.error DecErr.badSalt, [])
  | some salt =>
    match base64ToBytes C consts.IV with
    | none => (Except.error DecErr.badIV, [])
    | some iv =>
      match base64ToBytes C consts.ENCRYPTED_MESSAGE with
      | none => (Except.error DecErr.badCiphertext, [])
      | some ciphertext =>
        let key := deriveKey C code salt
        match subtleDecrypt C key iv ciphertext with
        | none =>
            (Except.error DecErr.authFailure,
             [CryptoOp.deriveOp, CryptoOp.decryptOp])
        | some pt =>
            (Except.ok (C.utf8Decode pt),
             [CryptoOp.deriveOp, CryptoOp.decryptOp])

/-- The runtime's `decryptMessage`: its whole body runs inside
`try { ... } catch { return null; }`, so every exception becomes `null`
(`none`) and a successful decrypt returns the decoded string. -/
def decryptMessage (C : Crypto) (consts : Constants) (code : String) :
    Option String × List CryptoOp :=
  match decryptMessageE C consts code with
  | (Except.ok s, ops) => (some s, ops)
  | (Except.error _, ops) => (none, ops)

/-- What the status element is showing. -/
inductive Status where
  | blank
  | decrypting
  | error (msg : String)
deriving DecidableEq, Repr

/-- The runtime state the verification logic mutates: the `isVerifying`
flag, the status line, and the revealed message (`some m` once
`showSuccess(m)` has run). -/
structure RuntimeState where
  isVerifying : Bool
  status : Status
  revealed : Option String
deriving DecidableEq, Repr

/-- The page's initial state: not verifying, blank status, nothing
revealed. -/
def initialState : RuntimeState :=
  { isVerifying := false, status := Status.blank, revealed := none }

/-- The runtime's `verify` function as one atomic transition, paired
with the trace of cryptographic operations it performs in order:
re-entrancy guard on `isVerifying`, length guard against `CODE_LENGTH`,
status set to DECRYPTING, SHA-256 hash comparison against `CODE_HASH`,
and only on a match the `decryptMessage` call; `showSuccess` leaves
`isVerifying` set forever, while both error paths clear it. -/
def verify (C : Crypto) (consts : Constants) (st : RuntimeState)
    (code : String) : RuntimeState × List CryptoOp :=
  if st.isVerifying then (st, [])
  else if code.length ≠ consts.CODE_LENGTH then (st, [])
  else
    let st1 := { st with isVerifying := true, status := Status.decrypting }
    let h := sha256Hex C code
    if h = consts.CODE_HASH then
      match decryptMessage C consts code with
      | (some m, ops) =>
          ({ st1 with revealed := some m }, CryptoOp.hashOp :: ops)
      | (none, ops) =>
          ({ st1 with isVerifying := false,
                      status := Status.error ("DECRYPTION FAILURE") },
           CryptoOp.hashOp :: ops)
    else
      ({ st1 with isVerifying := false,
                  status := Status.error ("INVALID SIGNAL") },
       [CryptoOp.hashOp])

/-- A sequence of submissions run one after the other through `verify`. -/
def runAttempts (C : Crypto) (consts : Constants) :
    RuntimeState → List String → RuntimeState
  | st, [] => st
  | st, c :: cs => runAttempts C consts (verify C consts st c).1 cs

/-! ## Tamper model -/

/-- Flip bit `k` of the byte at index `i` (XOR with `2^k`), the
single-bit corruption of the tampered-artifact property. -/
def flipBit (l : List Nat) (i k : Nat) : List Nat :=
  l.set i (l.getD i 0 ^^^ (1 <<< k))

/-- The embedded constants after a single-bit flip in the distributed
`ciphertextWithTag` artifact (re-encoded to Base64); the other
constants are untouched. -/
def tamperedConstants (C : Crypto) (out : BuildOutput) (i k : Nat) :
    Constants :=
  { toConstants out with
    ENCRYPTED_MESSAGE := C.toBase64 (flipBit out.encryptedWithTag i k) }

/-! ## A concrete computable model of the platform primitives

Used to exhibit witnesses: a fully executable `Crypto` instance whose
fields satisfy all the laws.  It is not the real SHA-256/PBKDF2/AES, but
the claims are proved for every `Crypto`, so any lawful instance
witnesses them. -/

/-- Every scalar value of a `Char` is below `0x110000`. -/
lemma char_toNat_lt (c : Char) : c.toNat < 1114112 := by
  rcases c.valid with h | ⟨_, h2⟩
  · exact Nat.lt_trans h (by norm_num)
  · exact h2

/-- Converting a byte to a `Char` and back is the identity. -/
lemma char_toNat_ofNat_of_lt {n : Nat} (h : n < 256) :
    (Char.ofNat n).toNat = n := by
  have hv : Nat.isValidChar n := Or.inl (by omega)
  simp [Char.ofNat, hv, Char.ofNatAux, Char.toNat]
  rfl

/-- Rebuilding a `Char` from its scalar value is the identity. -/
lemma char_ofNat_toNat (c : Char) : Char.ofNat c.toNat = c := by
  have h : Nat.isValidChar c.toNat := c.valid
  apply Char.eq_of_val_eq
  simp [Char.ofNat, h, Char.ofNatAux]
  rfl

/-- Fixed-width (3-byte, base-256) encoding of one character's scalar
value. -/
def packChar (c : Char) : List Nat :=
  [c.toNat / 65536, c.toNat / 256 % 256, c.toNat % 256]

/-- Toy text encoder: each character becomes its 3-byte code. -/
def toyUtf8 (s : String) : List Nat :=
  (s.data.map packChar).flatten

/-- Inverse of the 3-byte character code, consuming three bytes per
character. -/
def toyUtf8DecodeList : List Nat → List Char
  | a :: b :: c :: rest =>
      Char.ofNat (a * 65536 + b * 256 + c) :: toyUtf8DecodeList rest
  | _ => []

/-- Toy text decoder. -/
def toyUtf8Decode (l : List Nat) : String :=
  String.mk (toyUtf8DecodeList l)

/-- Toy 32-byte digest: the input padded/truncated to 32 bytes.  It is
injective on inputs of at most 32 bytes, which suffices for concrete
collision-freedom hypotheses. -/
def toySha256 (l : List Nat) : List Nat :=
  ((l ++ List.replicate 32 0).take 32).map (fun b => b % 256)

/-- Toy key derivation: password concatenated with salt. -/
def toyPbkdf2 (pw salt : List Nat) (_iter : Nat) (_alg : HashAlg)
    (_dkLen : Nat) : List Nat :=
  pw ++ salt

/-- Toy length-preserving cipher body: add 1 to each byte mod 256. -/
def toyGcmEnc (_k _iv m : List Nat) : List Nat :=
  m.map (fun b => (b + 1) % 256)

/-- Toy cipher body inverse: subtract 1 from each byte mod 256. -/
def toyGcmDec (_k _iv c : List Nat) : List Nat :=
  c.map (fun b => (b + 255) % 256)

/-- Toy 16-byte authentication tag: byte-sum of ciphertext and key,
padded with zeros. -/
def toyGcmTag (k _iv c : List Nat) : List Nat :=
  (c.foldl (· + ·) 0 + k.foldl (· + ·) 0) % 256 :: List.replicate 15 0

/-- Toy Base64: each byte becomes the character of its code point. -/
def toyToBase64 (bs : List Nat) : String :=
  String.mk (bs.map Char.ofNat)

/-- Toy Base64 decode: total, returns the binary string unchanged. -/
def toyAtob (s : String) : Option String :=
  some s

lemma packChar_lt (c : Char) : ∀ b ∈ packChar c, b < 256 := by
  have := char_toNat_lt c
  simp only [packChar, List.mem_cons, List.not_mem_nil, or_false]
  rintro b (rfl | rfl | rfl) <;> omega

lemma toyUtf8DecodeList_encode (cs : List Char) :
    toyUtf8DecodeList ((cs.map packChar).flatten) = cs := by
  induction cs with
  | nil => rfl
  | cons c cs ih =>
    have harith : c.toNat / 65536 * 65536 + c.toNat / 256 % 256 * 256 +
        c.toNat % 256 = c.toNat := by omega
    simp only [List.map_cons, List.flatten_cons, packChar,
      List.cons_append, List.nil_append, toyUtf8DecodeList, harith,
      char_ofNat_toNat]
    simpa using ih

/-- Decoding the characters of a toy-Base64 string recovers the bytes. -/
lemma map_toNat_map_ofNat (bs : List Nat)
    (hbs : bs.all (fun b => b < 256) = true) :
    (bs.map Char.ofNat).map Char.toNat = bs := by
  induction bs with
  | nil => rfl
  | cons b bs ih =>
    simp only [List.all_cons, Bool.and_eq_true, decide_eq_true_eq] at hbs
    simp only [List.map_cons]
    exact List.cons_eq_cons.mpr ⟨char_toNat_ofNat_of_lt hbs.1, ih hbs.2⟩

/-- The toy primitives assembled into a lawful `Crypto` instance. -/
def toyCrypto : Crypto where
  utf8 := toyUtf8
  utf8Decode := toyUtf8Decode
  sha256 := toySha256
  pbkdf2 := toyPbkdf2
  gcmEnc := toyGcmEnc
  gcmDec := toyGcmDec
  gcmTag := toyGcmTag
  toBase64 := toyToBase64
  atob := toyAtob
  utf8_lt := by
    intro s
    simp only [toyUtf8, List.all_eq_true, decide_eq_true_eq]
    intro b hb
    rcases List.mem_flatten.mp hb with ⟨l, hl, hbl⟩
    rcases List.mem_map.mp hl with ⟨c, _, rfl⟩
    exact packChar_lt c b hbl
  utf8Decode_utf8 := by
    intro s
    simp [toyUtf8, toyUtf8Decode, toyUtf8DecodeList_encode]
  sha256_lt := by
    intro l
    simp only [toySha256, List.all_eq_true, decide_eq_true_eq]
    intro b hb
    rcases List.mem_map.mp hb with ⟨a, _, rfl⟩
    exact Nat.mod_lt _ (by norm_num)
  gcmEnc_lt := by
    intro k iv m
    simp only [toyGcmEnc, List.all_eq_true, decide_eq_true_eq]
    intro b hb
    rcases List.mem_map.mp hb with ⟨a, _, rfl⟩
    exact Nat.mod_lt _ (by norm_num)
  gcmDec_gcmEnc := by
    intro k iv m hm
    induction m with
    | nil => rfl
    | cons b m ih =>
      simp only [List.all_cons, Bool.and_eq_true, decide_eq_true_eq] at hm
      simp only [toyGcmEnc, toyGcmDec, List.map_cons] at ih ⊢
      refine List.cons_eq_cons.mpr ⟨by omega, ?_⟩
      exact ih hm.2
  gcmTag_len := by
    intro k iv c
    simp [toyGcmTag]
  gcmTag_lt := by
    intro k iv c
    simp only [toyGcmTag, List.all_cons, Bool.and_eq_true, decide_eq_true_eq,
      List.all_eq_true]
    refine ⟨Nat.mod_lt _ (by norm_num), ?_⟩
    intro b hb
    have : b = 0 := List.eq_of_mem_replicate hb
    omega
  atob_toBase64 := by
    intro bs hbs
    simp [toyAtob, toyToBase64, map_toNat_map_ofNat bs hbs]

/-! ## General lemmas about the embedded operations -/

/-- The repo's Base64 decoder inverts the build script's Base64 encoder
on byte lists. -/
lemma base64ToBytes_toBase64 (C : Crypto) {bs : List Nat}
    (h : bs.all (fun b => b < 256) = true) :
    base64ToBytes C (C.toBase64 bs) = some bs :=
  C.atob_toBase64 bs h

/-- How Web Crypto's AES-GCM decrypt consumes a `body ++ tag` buffer
with a 16-byte tag: it splits at exactly the appended boundary and
checks the recomputed tag of the body against the trailing bytes. -/
lemma subtleDecrypt_append (C : Crypto) (key iv body tag : List Nat)
    (htag : tag.length = 16) :
    subtleDecrypt C key iv (body ++ tag) =
      if C.gcmTag key iv body = tag then some (C.gcmDec key iv body)
      else none := by
  unfold subtleDecrypt
  have hlen : (body ++ tag).length = body.length + 16 := by simp [htag]
  rw [if_neg (by omega)]
  have h1 : (body ++ tag).length - 128 / 8 = body.length := by
    rw [hlen]; norm_num
  rw [h1, List.take_left, List.drop_left]

/-- XOR with a nonzero mask always changes a value. -/
lemma xor_ne_self {b m : Nat} (hm : m ≠ 0) : b ^^^ m ≠ b := by
  intro h
  have h2 := congrArg (fun x => b ^^^ x) h
  simp only [Nat.xor_self] at h2
  rw [← Nat.xor_assoc, Nat.xor_self, Nat.zero_xor] at h2
  exact hm h2

/-- Setting index `i` of a list to a value different from the one
stored there produces a different list. -/
lemma set_ne_of_ne {l : List Nat} {i v : Nat} (hi : i < l.length)
    (hv : v ≠ l.getD i 0) : l.set i v ≠ l := by
  intro h
  apply hv
  have := congrArg (fun t => List.getD t i 0) h
  simpa [List.getD_eq_getElem?_getD, List.getElem?_set_self hi] using this

/-- Every byte of a list stays below 256 after setting one position to
a byte value. -/
lemma all_lt_set {l : List Nat} {i v : Nat}
    (hl : l.all (fun b => b < 256) = true) (hv : v < 256) :
    (l.set i v).all (fun b => b < 256) = true := by
  simp only [List.all_eq_true, decide_eq_true_eq] at hl ⊢
  intro b hb
  rcases List.mem_or_eq_of_mem_set hb with h | rfl
  · exact hl b h
  · exact hv

/-- The sixteen hex digit characters are pairwise distinct. -/
lemma hexChar_injOn : ∀ m < 16, ∀ n < 16, hexChar m = hexChar n → m = n := by
  decide

/-- Two-digit hex rendering is injective on bytes. -/
lemma byteHex_inj {b1 b2 : Nat} (h1 : b1 < 256) (h2 : b2 < 256)
    (h : byteHex b1 = byteHex b2) : b1 = b2 := by
  simp only [byteHex, List.cons.injEq, and_true] at h
  have e1 := hexChar_injOn (b1 / 16) (by omega) (b2 / 16) (by omega) h.1
  have e2 := hexChar_injOn (b1 % 16) (by omega) (b2 % 16) (by omega) h.2
  omega

lemma flatten_byteHex_inj :
    ∀ l1 l2 : List Nat, l1.all (fun b => b < 256) = true →
      l2.all (fun b => b < 256) = true →
      (l1.map byteHex).flatten = (l2.map byteHex).flatten → l1 = l2 := by
  intro l1
  induction l1 with
  | nil =>
    intro l2 _ _ h
    cases l2 with
    | nil => rfl
    | cons b l2 => simp [byteHex] at h
  | cons a l1 ih =>
    intro l2 h1 h2 h
    cases l2 with
    | nil => simp [byteHex] at h
    | cons b l2 =>
      simp only [List.all_cons, Bool.and_eq_true, decide_eq_true_eq] at h1 h2
      simp only [List.map_cons, List.flatten_cons] at h
      have hlen : (byteHex a).length = (byteHex b).length := by
        simp [byteHex]
      rcases List.append_inj h hlen with ⟨hhd, htl⟩
      have := byteHex_inj h1.1 h2.1 hhd
      rw [this, ih l2 h1.2 h2.2 htl]

/-- The canonical hex encoding is injective on byte lists. -/
lemma bytesToHex_inj {l1 l2 : List Nat}
    (h1 : l1.all (fun b => b < 256) = true)
    (h2 : l2.all (fun b => b < 256) = true)
    (h : bytesToHex l1 = bytesToHex l2) : l1 = l2 := by
  have hd : (l1.map byteHex).flatten = (l2.map byteHex).flatten :=
    congrArg String.data h
  exact flatten_byteHex_inj l1 l2 h1 h2 hd

/-- Distinct SHA-256 digests have distinct hex encodings, so the hex
comparison in `verify` is exactly a digest comparison. -/
lemma sha256Hex_ne (C : Crypto) {s1 s2 : String}
    (h : C.sha256 (C.utf8 s1) ≠ C.sha256 (C.utf8 s2)) :
    sha256Hex C s1 ≠ sha256Hex C s2 := fun he =>
  h (bytesToHex_inj (C.sha256_lt _) (C.sha256_lt _) he)

/-- The ciphertext-with-tag produced by the build script is byte-valued. -/
lemma encryptedWithTag_all_lt (C : Crypto) (code msg : String)
    (salt iv : List Nat) :
    (buildArtifacts C code msg salt iv).encryptedWithTag.all
      (fun b => b < 256) = true := by
  simp only [buildArtifacts, List.all_append, Bool.and_eq_true]
  exact ⟨C.gcmEnc_lt _ _ _, C.gcmTag_lt _ _ _⟩

/-- On the constants the build script produced, `decryptMessage` with the
original code recovers the original message (and performs exactly one
key derivation and one decryption). -/
lemma decryptMessage_build (C : Crypto) (code msg : String)
    (salt iv : List Nat)
    (hsb : salt.all (fun b => b < 256) = true)
    (hib : iv.all (fun b => b < 256) = true) :
    decryptMessage C (toConstants (buildArtifacts C code msg salt iv)) code =
      (some msg, [CryptoOp.deriveOp, CryptoOp.decryptOp]) := by
  have hkey : deriveKey C code salt = buildKey C code salt := by
    unfold deriveKey buildKey
    norm_num
  have hewt := encryptedWithTag_all_lt C code msg salt iv
  simp only [buildArtifacts] at hewt
  unfold decryptMessage decryptMessageE
  simp only [toConstants, buildArtifacts,
    base64ToBytes_toBase64 C hsb, base64ToBytes_toBase64 C hib,
    base64ToBytes_toBase64 C hewt, hkey,
    subtleDecrypt_append C _ _ _ _ (C.gcmTag_len _ _ _),
    C.gcmDec_gcmEnc _ _ _ (C.utf8_lt msg), C.utf8Decode_utf8, if_true]

/-- Indexing a byte-valued list yields a byte. -/
lemma getD_lt_of_all {l : List Nat} {i : Nat} (h : i < l.length)
    (hall : l.all (fun b => b < 256) = true) : l.getD i 0 < 256 := by
  simp only [List.getD_eq_getElem?_getD, List.getElem?_eq_getElem h,
    Option.getD_some]
  exact of_decide_eq_true (List.all_eq_true.mp hall _ (List.getElem_mem h))

/-- A single-bit mask for a bit position inside a byte is a nonzero
byte-sized value. -/
lemma shiftLeft_one_lt {k : Nat} (hk : k < 8) :
    1 <<< k < 256 ∧ 1 <<< k ≠ 0 := by
  rw [Nat.shiftLeft_eq, one_mul]
  refine ⟨?_, (Nat.pos_pow_of_pos k (by norm_num)).ne'⟩
  calc 2 ^ k ≤ 2 ^ 7 := Nat.pow_le_pow_right (by norm_num) (by omega)
  _ < 256 := by norm_num

/-- XOR of two bytes is a byte. -/
lemma xor_lt_256 {x y : Nat} (hx : x < 256) (hy : y < 256) :
    x ^^^ y < 256 := by
  have h : (256 : Nat) = 2 ^ 8 := by norm_num
  rw [h] at hx hy ⊢
  exact Nat.xor_lt_two_pow hx hy

/-- Authenticated decryption rejects any single-bit flip of a
`body ++ tag` buffer whose tag was computed from the body, provided the
(possibly modified) body does not collide with the original under the
tag function.  A flip inside the tag region is rejected outright. -/
lemma subtleDecrypt_flip_none (C : Crypto) (key iv body tag : List Nat)
    (i k : Nat) (htlen : tag.length = 16)
    (hbt : C.gcmTag key iv body = tag)
    (hlt : (body ++ tag).all (fun b => b < 256) = true)
    (hi : i < (body ++ tag).length) (hk : k < 8)
    (htag :
      (flipBit (body ++ tag) i k).take
          ((flipBit (body ++ tag) i k).length - 16) ≠ body →
        C.gcmTag key iv
            ((flipBit (body ++ tag) i k).take
              ((flipBit (body ++ tag) i k).length - 16)) ≠
          C.gcmTag key iv body) :
    subtleDecrypt C key iv (flipBit (body ++ tag) i k) = none := by
  have hm := shiftLeft_one_lt hk
  have hvlt : (body ++ tag).getD i 0 ^^^ (1 <<< k) < 256 :=
    xor_lt_256 (getD_lt_of_all hi hlt) hm.1
  by_cases hcase : i < body.length
  · -- the flip lands in the ciphertext body
    have hsplit : flipBit (body ++ tag) i k =
        body.set i ((body ++ tag).getD i 0 ^^^ (1 <<< k)) ++ tag := by
      unfold flipBit
      exact List.set_append_left i _ hcase
    have hbody' : body.set i ((body ++ tag).getD i 0 ^^^ (1 <<< k)) ≠
        body := by
      apply set_ne_of_ne hcase
      have hgd : (body ++ tag).getD i 0 = body.getD i 0 := by
        simp [List.getD_eq_getElem?_getD, List.getElem?_append_left hcase]
      rw [hgd]
      exact xor_ne_self hm.2
    have htake : (flipBit (body ++ tag) i k).take
        ((flipBit (body ++ tag) i k).length - 16) =
        body.set i ((body ++ tag).getD i 0 ^^^ (1 <<< k)) := by
      rw [hsplit]
      have hl : (body.set i ((body ++ tag).getD i 0 ^^^ (1 <<< k)) ++
          tag).length - 16 =
          (body.set i ((body ++ tag).getD i 0 ^^^ (1 <<< k))).length := by
        simp [htlen]
      rw [hl, List.take_left]
    rw [hsplit, subtleDecrypt_append C key iv _ _ htlen, if_neg]
    intro h
    have h2 := htag (by rw [htake]; exact hbody')
    rw [htake] at h2
    exact h2 (h.trans hbt.symm)
  · -- the flip lands in the tag region
    push_neg at hcase
    have hj : i - body.length < tag.length := by
      simp only [List.length_append] at hi
      omega
    have hsplit : flipBit (body ++ tag) i k =
        body ++ tag.set (i - body.length)
          ((body ++ tag).getD i 0 ^^^ (1 <<< k)) := by
      unfold flipBit
      exact List.set_append_right i _ hcase
    have htag' : tag.set (i - body.length)
        ((body ++ tag).getD i 0 ^^^ (1 <<< k)) ≠ tag := by
      apply set_ne_of_ne hj
      have hgd : (body ++ tag).getD i 0 = tag.getD (i - body.length) 0 := by
        simp [List.getD_eq_getElem?_getD, List.getElem?_append_right hcase]
      rw [hgd]
      exact xor_ne_self hm.2
    rw [hsplit, subtleDecrypt_append C key iv _ _ (by simp [htlen])]
    rw [if_neg]
    rw [hbt]
    exact fun h => htag' h.symm

/-- The two sides pass identical PBKDF2 parameters, so the runtime key
equals the build-time key. -/
lemma deriveKey_eq_buildKey (C : Crypto) (code : String) (salt : List Nat) :
    deriveKey C code salt = buildKey C code salt := by
  unfold deriveKey buildKey
  norm_num

/-- On constants whose distributed ciphertext has suffered a single-bit
flip, `decryptMessage` with the correct code fails (returns `null`),
assuming the flipped ciphertext body does not collide with the original
under the tag function. -/
lemma decryptMessage_tampered (C : Crypto) (code msg : String)
    (salt iv : List Nat) (i k : Nat)
    (hsb : salt.all (fun b => b < 256) = true)
    (hib : iv.all (fun b => b < 256) = true)
    (hi : i < (buildArtifacts C code msg salt iv).encryptedWithTag.length)
    (hk : k < 8)
    (htag :
      (flipBit (buildArtifacts C code msg salt iv).encryptedWithTag i
          k).take
        ((flipBit (buildArtifacts C code msg salt iv).encryptedWithTag i
            k).length - 16) ≠
        (buildArtifacts C code msg salt iv).encrypted →
      C.gcmTag (buildKey C code salt) iv
          ((flipBit (buildArtifacts C code msg salt iv).encryptedWithTag i
              k).take
            ((flipBit (buildArtifacts C code msg salt iv).encryptedWithTag
                i k).length - 16)) ≠
        C.gcmTag (buildKey C code salt) iv
          (buildArtifacts C code msg salt iv).encrypted) :
    decryptMessage C
        (tamperedConstants C (buildArtifacts C code msg salt iv) i k)
        code =
      (none, [CryptoOp.deriveOp, CryptoOp.decryptOp]) := by
  have hewt := encryptedWithTag_all_lt C code msg salt iv
  have hm := shiftLeft_one_lt hk
  have hflip_lt :
      (flipBit (buildArtifacts C code msg salt iv).encryptedWithTag i
        k).all (fun b => b < 256) = true := by
    unfold flipBit
    exact all_lt_set hewt (xor_lt_256 (getD_lt_of_all hi hewt) hm.1)
  have henc : (buildArtifacts C code msg salt iv).encrypted =
      C.gcmEnc (buildKey C code salt) iv (C.utf8 msg) := rfl
  have htg : (buildArtifacts C code msg salt iv).authTag =
      C.gcmTag (buildKey C code salt) iv
        (C.gcmEnc (buildKey C code salt) iv (C.utf8 msg)) := rfl
  have hnone : subtleDecrypt C (buildKey C code salt) iv
      (flipBit (buildArtifacts C code msg salt iv).encryptedWithTag i k) =
      none := by
    have happ : (buildArtifacts C code msg salt iv).encryptedWithTag =
        (buildArtifacts C code msg salt iv).encrypted ++
          (buildArtifacts C code msg salt iv).authTag := rfl
    have hbt : C.gcmTag (buildKey C code salt) iv
        (buildArtifacts C code msg salt iv).encrypted =
        (buildArtifacts C code msg salt iv).authTag := rfl
    have htlen : (buildArtifacts C code msg salt iv).authTag.length = 16 := by
      rw [htg]
      exact C.gcmTag_len _ _ _
    have hewt2 := hewt
    rw [happ] at hi hewt2 htag ⊢
    exact subtleDecrypt_flip_none C (buildKey C code salt) iv _ _ i k
      htlen hbt hewt2 hi hk htag
  unfold decryptMessage decryptMessageE
  have happ2 : (buildArtifacts C code msg salt iv).encryptedWithTag =
      C.gcmEnc (buildKey C code salt) iv (C.utf8 msg) ++
        C.gcmTag (buildKey C code salt) iv
          (C.gcmEnc (buildKey C code salt) iv (C.utf8 msg)) := rfl
  rw [happ2] at hnone hflip_lt
  simp only [tamperedConstants, toConstants, buildArtifacts,
    base64ToBytes_toBase64 C hsb, base64ToBytes_toBase64 C hib,
    base64ToBytes_toBase64 C hflip_lt, deriveKey_eq_buildKey, hnone]

/-! ## Claim theorems -/

/-- C1.  Round-trip: for every non-empty secret code and non-empty
message, running the preparation step (SHA-256 hash of the code, fresh
16-byte salt and 12-byte IV, PBKDF2 key, AES-256-GCM encryption with
the tag appended) and then calling `verify` with the same code and the
produced artifacts yields the accepted state revealing exactly the
original message. -/
theorem roundtrip (C : Crypto) (code msg : String) (salt iv : List Nat)
    (hcode : code ≠ "") (hmsg : msg ≠ "")
    (hslen : salt.length = 16) (hivlen : iv.length = 12)
    (hsb : salt.all (fun b => b < 256) = true)
    (hib : iv.all (fun b => b < 256) = true) :
    build C (some code) (some msg) salt iv =
      some (buildArtifacts C code msg salt iv) ∧
    verify C (toConstants (buildArtifacts C code msg salt iv))
        initialState code =
      ({ isVerifying := true, status := Status.decrypting,
         revealed := some msg },
       [CryptoOp.hashOp, CryptoOp.deriveOp, CryptoOp.decryptOp]) := by
  constructor
  · simp [build, truthy, hcode, hmsg]
  · unfold verify
    rw [if_neg (by simp [initialState])]
    rw [if_neg (by simp [toConstants, buildArtifacts])]
    rw [if_pos (by simp [toConstants, buildArtifacts, sha256Hex])]
    rw [decryptMessage_build C code msg salt iv hsb hib]

/-- C1 witness: a concrete non-empty code and message round-trip to the
accepted state through the lawful computable instance. -/
theorem roundtrip_witness :
    verify toyCrypto
        (toConstants (buildArtifacts toyCrypto ("AB") ("XY")
          (List.replicate 16 3) (List.replicate 12 5)))
        initialState ("AB") =
      ({ isVerifying := true, status := Status.decrypting,
         revealed := some ("XY") },
       [CryptoOp.hashOp, CryptoOp.deriveOp, CryptoOp.decryptOp]) :=
  (roundtrip toyCrypto ("AB") ("XY") (List.replicate 16 3) (List.replicate 12 5)
    (by decide) (by decide) (by decide) (by decide) (by decide)
    (by decide)).2

/-- C2.  The key-derivation and encryption contract is bit-for-bit
identical on both sides: the runtime's `deriveKey` computes the same
key as the build script's `pbkdf2Sync` call on the same inputs, and the
preparation output is ciphertext with the 16-byte GCM tag appended
(not prepended), which is exactly the layout `subtle.decrypt` consumes
(it splits the buffer at the appended boundary). -/
theorem contract_agreement (C : Crypto) (code msg : String)
    (salt iv : List Nat) :
    deriveKey C code salt = buildKey C code salt ∧
    (buildArtifacts C code msg salt iv).encryptedWithTag =
      (buildArtifacts C code msg salt iv).encrypted ++
        (buildArtifacts C code msg salt iv).authTag ∧
    (buildArtifacts C code msg salt iv).authTag.length = 16 ∧
    (∀ key iv2,
      subtleDecrypt C key iv2
          (buildArtifacts C code msg salt iv).encryptedWithTag =
        if C.gcmTag key iv2 (buildArtifacts C code msg salt iv).encrypted =
            (buildArtifacts C code msg salt iv).authTag
        then some
          (C.gcmDec key iv2 (buildArtifacts C code msg salt iv).encrypted)
        else none) := by
  refine ⟨by unfold deriveKey buildKey; norm_num, rfl, C.gcmTag_len _ _ _, ?_⟩
  intro key iv2
  exact subtleDecrypt_append C key iv2 _ _ (C.gcmTag_len _ _ _)

/-- C3.  Wrong code with the right length: a candidate different from
the secret code whose SHA-256 digest also differs (no hash collision)
drives `verify` to the hash-rejection state ("INVALID SIGNAL"), with
nothing revealed and no key derivation or decryption in the trace; the
comparison is of exact digests, hence case-sensitive. -/
theorem wrong_code_rejected (C : Crypto) (code code2 msg : String)
    (salt iv : List Nat)
    (hlen : code2.length = code.length) (hne : code2 ≠ code)
    (hhash : C.sha256 (C.utf8 code2) ≠ C.sha256 (C.utf8 code)) :
    verify C (toConstants (buildArtifacts C code msg salt iv))
        initialState code2 =
      ({ isVerifying := false, status := Status.error ("INVALID SIGNAL"),
         revealed := none },
       [CryptoOp.hashOp]) := by
  unfold verify
  rw [if_neg (by simp [initialState])]
  rw [if_neg (by simp [toConstants, buildArtifacts, hlen])]
  rw [if_neg (by
    simp only [toConstants, buildArtifacts]
    exact sha256Hex_ne C hhash)]
  rfl

/-- C3 witness: with secret code "ABC123", the case-mismatched
candidate "abc123" (same length, different digest) is rejected at the
hash check. -/
theorem wrong_code_rejected_witness :
    verify toyCrypto
        (toConstants (buildArtifacts toyCrypto ("ABC123") ("SECRET")
          (List.replicate 16 3) (List.replicate 12 5)))
        initialState ("abc123") =
      ({ isVerifying := false, status := Status.error ("INVALID SIGNAL"),
         revealed := none },
       [CryptoOp.hashOp]) :=
  wrong_code_rejected toyCrypto ("ABC123") ("abc123") ("SECRET")
    (List.replicate 16 3) (List.replicate 12 5)
    (by decide) (by decide) (by decide)

/-- C4.  Tampered artifact: after any single-bit flip in the
distributed ciphertext-with-tag, `verify` with the correct code reaches
the decrypt branch (the hash still matches) but transitions to the
decrypt-rejection state ("DECRYPTION FAILURE") with nothing revealed —
assuming the flipped ciphertext body does not collide with the original
under the authentication-tag function (a flip confined to the tag
region needs no such assumption, and the hypothesis is then vacuous
since the body is unchanged). -/
theorem tampered_rejected (C : Crypto) (code msg : String)
    (salt iv : List Nat) (i k : Nat)
    (hsb : salt.all (fun b => b < 256) = true)
    (hib : iv.all (fun b => b < 256) = true)
    (hi : i < (buildArtifacts C code msg salt iv).encryptedWithTag.length)
    (hk : k < 8)
    (htag :
      (flipBit (buildArtifacts C code msg salt iv).encryptedWithTag i
          k).take
        ((flipBit (buildArtifacts C code msg salt iv).encryptedWithTag i
            k).length - 16) ≠
        (buildArtifacts C code msg salt iv).encrypted →
      C.gcmTag (buildKey C code salt) iv
          ((flipBit (buildArtifacts C code msg salt iv).encryptedWithTag i
              k).take
            ((flipBit (buildArtifacts C code msg salt iv).encryptedWithTag
                i k).length - 16)) ≠
        C.gcmTag (buildKey C code salt) iv
          (buildArtifacts C code msg salt iv).encrypted) :
    verify C (tamperedConstants C (buildArtifacts C code msg salt iv) i k)
        initialState code =
      ({ isVerifying := false,
         status := Status.error ("DECRYPTION FAILURE"), revealed := none },
       [CryptoOp.hashOp, CryptoOp.deriveOp, CryptoOp.decryptOp]) := by
  unfold verify
  rw [if_neg (by simp [initialState])]
  rw [if_neg (by simp [tamperedConstants, toConstants, buildArtifacts])]
  rw [if_pos (by simp [tamperedConstants, toConstants, buildArtifacts,
    sha256Hex])]
  rw [decryptMessage_tampered C code msg salt iv i k hsb hib hi hk htag]
  rfl

/-- C4 witness: flipping the lowest bit of the first ciphertext byte of
a concrete build is rejected at decryption. -/
theorem tampered_rejected_witness :
    verify toyCrypto
        (tamperedConstants toyCrypto
          (buildArtifacts toyCrypto ("AB") ("XY")
            (List.replicate 16 3) (List.replicate 12 5)) 0 0)
        initialState ("AB") =
      ({ isVerifying := false,
         status := Status.error ("DECRYPTION FAILURE"), revealed := none },
       [CryptoOp.hashOp, CryptoOp.deriveOp, CryptoOp.decryptOp]) :=
  tampered_rejected toyCrypto ("AB") ("XY")
    (List.replicate 16 3) (List.replicate 12 5) 0 0
    (by decide) (by decide) (by decide) (by decide) (by decide)

/-- C5.  Ordering of the two checks: the SHA-256 comparison happens
first — when the candidate's hash does not match the embedded hash, the
attempt ends in the hash-rejection state having performed exactly the
hash operation (no key derivation, no decryption); and in every
execution trace a key derivation can only occur strictly after the hash
operation that heads the trace. -/
theorem hash_before_derivation (C : Crypto) (consts : Constants)
    (st : RuntimeState) (code : String) :
    (st.isVerifying = false → code.length = consts.CODE_LENGTH →
      sha256Hex C code ≠ consts.CODE_HASH →
      verify C consts st code =
        ({ st with
            isVerifying := false
            status := Status.error ("INVALID SIGNAL") },
         [CryptoOp.hashOp])) ∧
    (CryptoOp.deriveOp ∈ (verify C consts st code).2 →
      ∃ tl, (verify C consts st code).2 = CryptoOp.hashOp :: tl ∧
        CryptoOp.deriveOp ∈ tl) := by
  constructor
  · intro hv hlen hhash
    unfold verify
    rw [if_neg (by simp [hv]), if_neg (by simp [hlen]), if_neg hhash]
  · intro hmem
    unfold verify at hmem ⊢
    by_cases hv : st.isVerifying
    · rw [if_pos hv] at hmem
      simp at hmem
    · rw [if_neg (by simp [hv])] at hmem ⊢
      by_cases hlen : code.length ≠ consts.CODE_LENGTH
      · rw [if_pos hlen] at hmem
        simp at hmem
      · rw [if_neg hlen] at hmem ⊢
        by_cases hhash : sha256Hex C code = consts.CODE_HASH
        · rw [if_pos hhash] at hmem ⊢
          rcases hdm : decryptMessage C consts code with ⟨r, ops⟩
          cases r with
          | some m =>
            rw [hdm] at hmem
            refine ⟨ops, rfl, ?_⟩
            simpa using hmem
          | none =>
            rw [hdm] at hmem
            refine ⟨ops, rfl, ?_⟩
            simpa using hmem
        · rw [if_neg hhash] at hmem
          simp at hmem

/-- C5 witness: a concrete hash mismatch ends in the hash-rejection
state with a trace of exactly one hash operation. -/
theorem hash_before_derivation_witness :
    verify toyCrypto
        (toConstants (buildArtifacts toyCrypto ("AB") ("XY")
          (List.replicate 16 3) (List.replicate 12 5)))
        initialState ("ZZ") =
      ({ initialState with
          isVerifying := false
          status := Status.error ("INVALID SIGNAL") },
       [CryptoOp.hashOp]) :=
  (hash_before_derivation toyCrypto
    (toConstants (buildArtifacts toyCrypto ("AB") ("XY")
      (List.replicate 16 3) (List.replicate 12 5)))
    initialState ("ZZ")).1 rfl (by decide) (by decide)

/-- C6.  Decrypt-side error policy: whenever the hash check passes but
`decryptMessage` fails (returns `null` because some step of its body
threw), `verify` transitions to the decrypt-rejection state
("DECRYPTION FAILURE") through the single `catch`-driven fallback —
never to the accepted state, and the failure is visible as an
`Except.error` of the decrypt body rather than a propagated exception. -/
theorem decrypt_failure_policy (C : Crypto) (consts : Constants)
    (st : RuntimeState) (code : String)
    (hv : st.isVerifying = false)
    (hlen : code.length = consts.CODE_LENGTH)
    (hhash : sha256Hex C code = consts.CODE_HASH)
    (hdec : (decryptMessage C consts code).1 = none) :
    verify C consts st code =
      ({ st with
          isVerifying := false
          status := Status.error ("DECRYPTION FAILURE") },
       CryptoOp.hashOp :: (decryptMessage C consts code).2) ∧
    (∃ e, (decryptMessageE C consts code).1 = Except.error e) := by
  constructor
  · unfold verify
    rw [if_neg (by simp [hv]), if_neg (by simp [hlen]), if_pos hhash]
    rcases hdm : decryptMessage C consts code with ⟨r, ops⟩
    rw [hdm] at hdec
    simp only at hdec
    rw [hdec]
  · unfold decryptMessage at hdec
    rcases hde : decryptMessageE C consts code with ⟨r, ops⟩
    rw [hde] at hdec
    cases r with
    | ok s => simp at hdec
    | error e => exact ⟨e, by simp [hde]⟩

/-- C6 witness: constants with a matching hash but an empty ciphertext
(shorter than the 16-byte tag) make decryption fail and drive `verify`
to the decrypt-rejection state. -/
theorem decrypt_failure_policy_witness :
    verify toyCrypto
        { CODE_HASH := sha256Hex toyCrypto ("AB"), CODE_LENGTH := 2,
          SALT := toyToBase64 (List.replicate 16 3),
          IV := toyToBase64 (List.replicate 12 5),
          ENCRYPTED_MESSAGE := toyToBase64 [] }
        initialState ("AB") =
      ({ initialState with
          isVerifying := false
          status := Status.error ("DECRYPTION FAILURE") },
       CryptoOp.hashOp ::
         (decryptMessage toyCrypto
           { CODE_HASH := sha256Hex toyCrypto ("AB"), CODE_LENGTH := 2,
             SALT := toyToBase64 (List.replicate 16 3),
             IV := toyToBase64 (List.replicate 12 5),
             ENCRYPTED_MESSAGE := toyToBase64 [] } ("AB")).2) :=
  (decrypt_failure_policy toyCrypto
    { CODE_HASH := sha256Hex toyCrypto ("AB"), CODE_LENGTH := 2,
      SALT := toyToBase64 (List.replicate 16 3),
      IV := toyToBase64 (List.replicate 12 5),
      ENCRYPTED_MESSAGE := toyToBase64 [] }
    initialState ("AB") rfl (by decide) (by decide) (by decide)).1

/-- C7.  Length precondition: a candidate whose length differs from
`CODE_LENGTH` leaves the state machine unchanged — no hash, no key
derivation, no rejection state, no error (empty operation trace,
identical state). -/
theorem length_mismatch_noop (C : Crypto) (consts : Constants)
    (st : RuntimeState) (code : String)
    (hlen : code.length ≠ consts.CODE_LENGTH) :
    verify C consts st code = (st, []) := by
  unfold verify
  by_cases hv : st.isVerifying
  · rw [if_pos hv]
  · rw [if_neg (by simp [hv]), if_pos hlen]

/-- C7 witness: a one-character candidate against a two-character code
leaves the initial state untouched. -/
theorem length_mismatch_noop_witness :
    verify toyCrypto
        (toConstants (buildArtifacts toyCrypto ("AB") ("XY")
          (List.replicate 16 3) (List.replicate 12 5)))
        initialState ("A") =
      (initialState, []) :=
  length_mismatch_noop toyCrypto
    (toConstants (buildArtifacts toyCrypto ("AB") ("XY")
      (List.replicate 16 3) (List.replicate 12 5)))
    initialState ("A") (by decide)

/-- C8.  Single-flight and terminal acceptance: a `verify` call while
`isVerifying` is still set is a no-op; any state with the flag set
absorbs every later sequence of submissions unchanged (in particular an
accepted state keeps its revealed message forever); and a transition
that newly reveals a message always leaves the flag set, making
acceptance terminal. -/
theorem single_flight_terminal (C : Crypto) (consts : Constants) :
    (∀ st code, st.isVerifying = true →
      verify C consts st code = (st, [])) ∧
    (∀ st cs, st.isVerifying = true →
      runAttempts C consts st cs = st) ∧
    (∀ st code m, st.revealed = none →
      (verify C consts st code).1.revealed = some m →
      (verify C consts st code).1.isVerifying = true) := by
  have hguard : ∀ st code, st.isVerifying = true →
      verify C consts st code = (st, []) := by
    intro st code hv
    unfold verify
    rw [if_pos hv]
  refine ⟨hguard, ?_, ?_⟩
  · intro st cs hv
    induction cs with
    | nil => rfl
    | cons c cs ih =>
      unfold runAttempts
      rw [hguard st c hv]
      exact ih
  · intro st code m hrev hsome
    unfold verify at hsome ⊢
    by_cases hv : st.isVerifying
    · rw [if_pos hv] at hsome
      simp [hrev] at hsome
    · rw [if_neg (by simp [hv])] at hsome ⊢
      by_cases hlen : code.length ≠ consts.CODE_LENGTH
      · rw [if_pos hlen] at hsome
        simp [hrev] at hsome
      · rw [if_neg hlen] at hsome ⊢
        by_cases hhash : sha256Hex C code = consts.CODE_HASH
        · rw [if_pos hhash] at hsome ⊢
          rcases hdm : decryptMessage C consts code with ⟨r, ops⟩
          cases r with
          | some m2 => rfl
          | none =>
            rw [hdm] at hsome
            simp [hrev] at hsome
        · rw [if_neg hhash] at hsome
          simp [hrev] at hsome

/-- C8 witness: the accepted state produced by a concrete round trip
absorbs further submissions (correct and incorrect) unchanged. -/
theorem single_flight_terminal_witness :
    runAttempts toyCrypto
        (toConstants (buildArtifacts toyCrypto ("AB") ("XY")
          (List.replicate 16 3) (List.replicate 12 5)))
        { isVerifying := true, status := Status.decrypting,
          revealed := some ("XY") }
        ["AB", "ZZ"] =
      { isVerifying := true, status := Status.decrypting,
        revealed := some ("XY") } :=
  (single_flight_terminal toyCrypto
    (toConstants (buildArtifacts toyCrypto ("AB") ("XY")
      (List.replicate 16 3) (List.replicate 12 5)))).2.1
    { isVerifying := true, status := Status.decrypting,
      revealed := some ("XY") }
    ["AB", "ZZ"] rfl

/-- C9.  Preparation-time configuration error: if the secret code or the
secret message is missing (`undefined`) or empty, the build aborts
fatally and produces no artifact at all. -/
theorem missing_secret_aborts (C : Crypto) (code? msg? : Option String)
    (salt iv : List Nat)
    (h : code? = none ∨ code? = some ("") ∨ msg? = none ∨ msg? = some ("")) :
    build C code? msg? salt iv = none := by
  rcases h with rfl | rfl | rfl | rfl
  · rfl
  · rfl
  · unfold build truthy
    cases code? <;> simp
  · unfold build truthy
    cases code? <;> simp

/-- C9 witness: a missing code and an empty message each abort a
concrete build. -/
theorem missing_secret_aborts_witness :
    build toyCrypto none (some ("XY")) (List.replicate 16 3)
        (List.replicate 12 5) = none ∧
    build toyCrypto (some ("AB")) (some ("")) (List.replicate 16 3)
        (List.replicate 12 5) = none :=
  ⟨missing_secret_aborts toyCrypto none (some ("XY")) _ _ (Or.inl rfl),
   missing_secret_aborts toyCrypto (some ("AB")) (some ("")) _ _
     (Or.inr (Or.inr (Or.inr rfl)))⟩

/-- C10.  `decryptMessage` is total at the core's boundary: for every
candidate code and every value of the embedded constants it returns
either the decoded plaintext (when its body succeeded) or `null` (when
its body threw any of its errors); no exception escapes to the state
machine. -/
theorem decryptMessage_total (C : Crypto) (consts : Constants)
    (code : String) :
    (∃ s, (decryptMessageE C consts code).1 = Except.ok s ∧
      (decryptMessage C consts code).1 = some s) ∨
    (∃ e, (decryptMessageE C consts code).1 = Except.error e ∧
      (decryptMessage C consts code).1 = none) := by
  unfold decryptMessage
  rcases h : decryptMessageE C consts code with ⟨r, ops⟩
  cases r with
  | ok s => exact Or.inl ⟨s, by simp [h]⟩
  | error e => exact Or.inr ⟨e, by simp [h]⟩

end ScavengerHunt
